import Mathlib

/-!
# Verification of the `badgerdict` Python package

A shallow embedding of `src/badgerdict/__init__.py` (the `BadgerDict` store
binding, the `_FileLock`-guarded `PersistentObject` atomic-update protocol, and
the value codec), together with theorems checking the package's specification.

Modelling conventions:
* Python `bytes` values are `List Nat` (each element a byte).
* Python `str` values are `List Nat` of Unicode code points; `str.encode("utf-8")`
  and `bytes.decode("utf-8")` are embedded as an executable UTF-8 codec.  In the
  value codec, `str.encode("utf-8")` is `pyStrEncode`, which models CPython's
  `UnicodeEncodeError` on lone surrogates (U+D800-U+DFFF).
* The native Go library (`Open`/`Close`/`Set`/`Get`/`Delete`/`Sync`/`LastError`)
  is an external collaborator; one call's observable behaviour is a `NativeEnv`
  record of the results it would return, and every wrapper operation also
  returns the list of native calls it performed, so "no native call is made"
  claims are statements about that trace.
* `pickle.dumps` / `pickle.loads` are external library functions and are passed
  in as parameters (`dumps` / `loads`) wherever the source calls them.
* Python exceptions are `Except PyErr` results.
-/

namespace BadgerSpec

/-! ## Strings and bytes -/

/-- Code points of a string literal; used to state Python string constants. -/
def strCps (s : String) : List Nat := s.data.map Char.toNat

/-- Python `str.lower()` restricted to the ASCII range (the only range the
source ever matches against, via the constant `"not found"`). -/
def pyLower (m : List Nat) : List Nat :=
  m.map (fun c => if 65 ≤ c ∧ c ≤ 90 then c + 32 else c)

/-- Python's substring test `pat in s` on code-point lists. -/
def listContains (pat : List Nat) : List Nat → Bool
  | [] => pat.isEmpty
  | c :: rest => pat.isPrefixOf (c :: rest) || listContains pat rest

/-! ## UTF-8 codec

Embeds Python's `str.encode("utf-8")` / `bytes.decode("utf-8")` on code-point
lists.  The decoder consumes one code point at a time (`utf8DecodeOne`). -/

/-- Is `b` a UTF-8 continuation byte? -/
def utf8Cont (b : Nat) : Bool := decide (0x80 ≤ b ∧ b < 0xC0)

/-- Tail of a two-byte UTF-8 sequence with lead byte `b`. -/
def utf8Two (b : Nat) : List Nat → Option (Nat × List Nat)
  | b1 :: rest =>
    if utf8Cont b1 then some ((b - 0xC0) * 64 + (b1 - 0x80), rest) else none
  | [] => none

/-- Tail of a three-byte UTF-8 sequence with lead byte `b`. -/
def utf8Three (b : Nat) : List Nat → Option (Nat × List Nat)
  | b1 :: b2 :: rest =>
    if utf8Cont b1 && utf8Cont b2 then
      some ((b - 0xE0) * 4096 + (b1 - 0x80) * 64 + (b2 - 0x80), rest)
    else none
  | _ => none

/-- Tail of a four-byte UTF-8 sequence with lead byte `b`. -/
def utf8Four (b : Nat) : List Nat → Option (Nat × List Nat)
  | b1 :: b2 :: b3 :: rest =>
    if utf8Cont b1 && utf8Cont b2 && utf8Cont b3 then
      some ((b - 0xF0) * 262144 + (b1 - 0x80) * 4096 + (b2 - 0x80) * 64 + (b3 - 0x80), rest)
    else none
  | _ => none

/-- Decode one code point from the front of a byte list. -/
def utf8DecodeOne : List Nat → Option (Nat × List Nat)
  | [] => none
  | b :: rest =>
    if b < 0x80 then some (b, rest)
    else if b < 0xC0 then none
    else if b < 0xE0 then utf8Two b rest
    else if b < 0xF0 then utf8Three b rest
    else if b < 0xF8 then utf8Four b rest
    else none

theorem utf8Two_len {b c : Nat} {l rest : List Nat}
    (h : utf8Two b l = some (c, rest)) : rest.length < l.length := by
  cases l with
  | nil => exact absurd h (by simp [utf8Two])
  | cons b1 tl =>
    rw [utf8Two] at h
    by_cases hc : utf8Cont b1
    · rw [if_pos hc] at h
      simp only [Option.some.injEq, Prod.mk.injEq] at h
      obtain ⟨-, h2⟩ := h
      subst h2
      simp
    · rw [if_neg hc] at h
      exact absurd h (by simp)

theorem utf8Three_len {b c : Nat} {l rest : List Nat}
    (h : utf8Three b l = some (c, rest)) : rest.length < l.length := by
  match l with
  | [] => exact absurd h (by simp [utf8Three])
  | [b1] => exact absurd h (by simp [utf8Three])
  | b1 :: b2 :: tl =>
    rw [utf8Three] at h
    by_cases hc : utf8Cont b1 && utf8Cont b2
    · rw [if_pos hc] at h
      simp only [Option.some.injEq, Prod.mk.injEq] at h
      obtain ⟨-, h2⟩ := h
      subst h2
      simp only [List.length_cons]
      omega
    · rw [if_neg hc] at h
      exact absurd h (by simp)

theorem utf8Four_len {b c : Nat} {l rest : List Nat}
    (h : utf8Four b l = some (c, rest)) : rest.length < l.length := by
  match l with
  | [] => exact absurd h (by simp [utf8Four])
  | [b1] => exact absurd h (by simp [utf8Four])
  | [b1, b2] => exact absurd h (by simp [utf8Four])
  | b1 :: b2 :: b3 :: tl =>
    rw [utf8Four] at h
    by_cases hc : utf8Cont b1 && utf8Cont b2 && utf8Cont b3
    · rw [if_pos hc] at h
      simp only [Option.some.injEq, Prod.mk.injEq] at h
      obtain ⟨-, h2⟩ := h
      subst h2
      simp only [List.length_cons]
      omega
    · rw [if_neg hc] at h
      exact absurd h (by simp)

theorem utf8DecodeOne_len {c : Nat} {l rest : List Nat}
    (h : utf8DecodeOne l = some (c, rest)) : rest.length < l.length := by
  cases l with
  | nil => exact absurd h (by simp [utf8DecodeOne])
  | cons b tl =>
    rw [utf8DecodeOne] at h
    by_cases h1 : b < 0x80
    · rw [if_pos h1] at h
      simp only [Option.some.injEq, Prod.mk.injEq] at h
      obtain ⟨-, h2⟩ := h
      subst h2
      simp
    · rw [if_neg h1] at h
      by_cases h2 : b < 0xC0
      · rw [if_pos h2] at h; exact absurd h (by simp)
      · rw [if_neg h2] at h
        by_cases h3 : b < 0xE0
        · rw [if_pos h3] at h
          have := utf8Two_len h
          simp only [List.length_cons]
          omega
        · rw [if_neg h3] at h
          by_cases h4 : b < 0xF0
          · rw [if_pos h4] at h
            have := utf8Three_len h
            simp only [List.length_cons]
            omega
          · rw [if_neg h4] at h
            by_cases h5 : b < 0xF8
            · rw [if_pos h5] at h
              have := utf8Four_len h
              simp only [List.length_cons]
              omega
            · rw [if_neg h5] at h; exact absurd h (by simp)

/-- UTF-8 decoding of a whole byte list; `none` models `UnicodeDecodeError`. -/
def utf8Decode (l : List Nat) : Option (List Nat) :=
  match h : utf8DecodeOne l with
  | some (c, rest) => (utf8Decode rest).map (c :: ·)
  | none => if l.isEmpty then some [] else none
termination_by l.length
decreasing_by exact utf8DecodeOne_len h

theorem utf8Decode_nil : utf8Decode [] = some [] := by
  rw [utf8Decode]; rfl

theorem utf8Decode_of_one {c : Nat} {l rest : List Nat}
    (h : utf8DecodeOne l = some (c, rest)) :
    utf8Decode l = (utf8Decode rest).map (c :: ·) := by
  rw [utf8Decode, h]

/-- UTF-8 encoding of a single code point. -/
def utf8EncodeCp (c : Nat) : List Nat :=
  if c < 0x80 then [c]
  else if c < 0x800 then [0xC0 + c / 64, 0x80 + c % 64]
  else if c < 0x10000 then [0xE0 + c / 4096, 0x80 + c / 64 % 64, 0x80 + c % 64]
  else [0xF0 + c / 262144, 0x80 + c / 4096 % 64, 0x80 + c / 64 % 64, 0x80 + c % 64]

/-- Byte-level UTF-8 encoding of a code-point list, total on code points.
CPython's `str.encode("utf-8")` rejects lone surrogates before producing
bytes; that fallible call is `pyStrEncode` below, which guards this encoder
with the scalar-value check. -/
def utf8Encode (s : List Nat) : List Nat := s.flatMap utf8EncodeCp

/-- Is `c` a Unicode scalar value (encodable by `str.encode("utf-8")`)?
Lone surrogates U+D800-U+DFFF are code points but not scalar values. -/
def isScalar (c : Nat) : Bool :=
  decide (c < 0xD800 ∨ (0xE000 ≤ c ∧ c < 0x110000))

theorem utf8DecodeOne_cons (b : Nat) (rest : List Nat) :
    utf8DecodeOne (b :: rest) =
      if b < 0x80 then some (b, rest)
      else if b < 0xC0 then none
      else if b < 0xE0 then utf8Two b rest
      else if b < 0xF0 then utf8Three b rest
      else if b < 0xF8 then utf8Four b rest
      else none := rfl

theorem utf8Two_cons (b b1 : Nat) (rest : List Nat) :
    utf8Two b (b1 :: rest) =
      if utf8Cont b1 then some ((b - 0xC0) * 64 + (b1 - 0x80), rest) else none := rfl

theorem utf8Three_cons (b b1 b2 : Nat) (rest : List Nat) :
    utf8Three b (b1 :: b2 :: rest) =
      if utf8Cont b1 && utf8Cont b2 then
        some ((b - 0xE0) * 4096 + (b1 - 0x80) * 64 + (b2 - 0x80), rest)
      else none := rfl

theorem utf8Four_cons (b b1 b2 b3 : Nat) (rest : List Nat) :
    utf8Four b (b1 :: b2 :: b3 :: rest) =
      if utf8Cont b1 && utf8Cont b2 && utf8Cont b3 then
        some ((b - 0xF0) * 262144 + (b1 - 0x80) * 4096 + (b2 - 0x80) * 64 + (b3 - 0x80), rest)
      else none := rfl

theorem utf8DecodeOne_encodeCp (c : Nat) (hc : c < 0x110000) (rest : List Nat) :
    utf8DecodeOne (utf8EncodeCp c ++ rest) = some (c, rest) := by
  rw [utf8EncodeCp]
  by_cases h1 : c < 0x80
  · rw [if_pos h1, List.cons_append, List.nil_append, utf8DecodeOne_cons, if_pos h1]
  · rw [if_neg h1]
    by_cases h2 : c < 0x800
    · rw [if_pos h2]
      have hb1 : ¬ (0xC0 + c / 64 < 0x80) := by omega
      have hb2 : ¬ (0xC0 + c / 64 < 0xC0) := by omega
      have hb3 : 0xC0 + c / 64 < 0xE0 := by omega
      have hc1 : utf8Cont (0x80 + c % 64) = true := by
        simp only [utf8Cont, decide_eq_true_eq]; omega
      rw [List.cons_append, List.cons_append, List.nil_append, utf8DecodeOne_cons,
        if_neg hb1, if_neg hb2, if_pos hb3, utf8Two_cons, if_pos hc1]
      simp only [Option.some.injEq, Prod.mk.injEq]
      exact ⟨by omega, trivial⟩
    · rw [if_neg h2]
      by_cases h3 : c < 0x10000
      · rw [if_pos h3]
        have hb1 : ¬ (0xE0 + c / 4096 < 0x80) := by omega
        have hb2 : ¬ (0xE0 + c / 4096 < 0xC0) := by omega
        have hb3 : ¬ (0xE0 + c / 4096 < 0xE0) := by omega
        have hb4 : 0xE0 + c / 4096 < 0xF0 := by omega
        have hc1 : utf8Cont (0x80 + c / 64 % 64) = true := by
          simp only [utf8Cont, decide_eq_true_eq]; omega
        have hc2 : utf8Cont (0x80 + c % 64) = true := by
          simp only [utf8Cont, decide_eq_true_eq]; omega
        have hand : (utf8Cont (0x80 + c / 64 % 64) && utf8Cont (0x80 + c % 64)) = true := by
          rw [hc1, hc2]; rfl
        have e1 : c / 64 / 64 = c / 4096 := by
          rw [Nat.div_div_eq_div_mul]
        rw [List.cons_append, List.cons_append, List.cons_append, List.nil_append,
          utf8DecodeOne_cons, if_neg hb1, if_neg hb2, if_neg hb3, if_pos hb4,
          utf8Three_cons, if_pos hand]
        simp only [Option.some.injEq, Prod.mk.injEq]
        exact ⟨by omega, trivial⟩
      · rw [if_neg h3]
        have hb1 : ¬ (0xF0 + c / 262144 < 0x80) := by omega
        have hb2 : ¬ (0xF0 + c / 262144 < 0xC0) := by omega
        have hb3 : ¬ (0xF0 + c / 262144 < 0xE0) := by omega
        have hb4 : ¬ (0xF0 + c / 262144 < 0xF0) := by omega
        have hb5 : 0xF0 + c / 262144 < 0xF8 := by omega
        have hc1 : utf8Cont (0x80 + c / 4096 % 64) = true := by
          simp only [utf8Cont, decide_eq_true_eq]; omega
        have hc2 : utf8Cont (0x80 + c / 64 % 64) = true := by
          simp only [utf8Cont, decide_eq_true_eq]; omega
        have hc3 : utf8Cont (0x80 + c % 64) = true := by
          simp only [utf8Cont, decide_eq_true_eq]; omega
        have hand : (utf8Cont (0x80 + c / 4096 % 64) && utf8Cont (0x80 + c / 64 % 64) &&
            utf8Cont (0x80 + c % 64)) = true := by
          rw [hc1, hc2, hc3]; rfl
        have e1 : c / 64 / 64 = c / 4096 := by
          rw [Nat.div_div_eq_div_mul]
        have e2 : c / 64 / 64 / 64 = c / 262144 := by
          rw [Nat.div_div_eq_div_mul, Nat.div_div_eq_div_mul]
        rw [List.cons_append, List.cons_append, List.cons_append, List.cons_append,
          List.nil_append, utf8DecodeOne_cons, if_neg hb1, if_neg hb2, if_neg hb3,
          if_neg hb4, if_pos hb5, utf8Four_cons, if_pos hand]
        simp only [Option.some.injEq, Prod.mk.injEq]
        exact ⟨by omega, trivial⟩

theorem utf8Decode_utf8Encode (s : List Nat) (h : ∀ c ∈ s, c < 0x110000) :
    utf8Decode (utf8Encode s) = some s := by
  induction s with
  | nil => exact utf8Decode_nil
  | cons c cs ih =>
    have hc : c < 0x110000 := h c (List.mem_cons_self c cs)
    have hcs : ∀ x ∈ cs, x < 0x110000 := fun x hx => h x (List.mem_cons_of_mem c hx)
    rw [utf8Encode, List.flatMap_cons,
      utf8Decode_of_one (utf8DecodeOne_encodeCp c hc (cs.flatMap utf8EncodeCp)),
      show cs.flatMap utf8EncodeCp = utf8Encode cs from rfl, ih hcs]
    rfl

/-! ## Python values and exceptions -/

/-- The Python values the binding handles: byte-like values (`bytes`,
`bytearray`, `memoryview`, all carrying a byte list), text (`str`, as code
points), `None`, and an opaque "any other object" identified by a code
(these are the values handed to `pickle`). -/
inductive PyVal where
  | bytes (data : List Nat)
  | bytearray (data : List Nat)
  | memview (data : List Nat)
  | str (s : List Nat)
  | pynone
  | obj (id : Nat)
deriving DecidableEq

/-- The exceptions the source raises or propagates. -/
inductive PyErr where
  | valueError (msg : List Nat)
  | typeError (msg : List Nat)
  | keyError
  | badgerError (msg : List Nat)
  | runtimeError (msg : List Nat)
  | unicodeDecodeError
  | unicodeEncodeError
  | pickleError
deriving DecidableEq

/-- `isinstance(v, (bytes, bytearray, memoryview))`, with the payload that
`bytes(v)` yields. -/
def byteLikeData : PyVal → Option (List Nat)
  | .bytes d => some d
  | .bytearray d => some d
  | .memview d => some d
  | _ => none

/-- Python `==` on the embedded values: byte-like values compare by content
across the three byte-like types, `str` and other values compare within their
own type. -/
def pyEq (a b : PyVal) : Bool :=
  match byteLikeData a, byteLikeData b with
  | some x, some y => x == y
  | some _, none => false
  | none, some _ => false
  | none, none =>
    match a, b with
    | .str x, .str y => x == y
    | .pynone, .pynone => true
    | .obj x, .obj y => x == y
    | _, _ => false

/-! ## Value codec (`BadgerDict._encode_value` / `BadgerDict._decode_value`,
source lines 218-241) -/

def _VALUE_RAW : Nat := 0x00
def _VALUE_STR : Nat := 0x01
def _VALUE_PICKLED : Nat := 0x02

/-- Python `str.encode("utf-8")` as the source calls it on values: raises
`UnicodeEncodeError` when the string contains a non-scalar code point (a lone
surrogate), otherwise yields the UTF-8 bytes. -/
def pyStrEncode (s : List Nat) : Except PyErr (List Nat) :=
  if s.all isScalar then .ok (utf8Encode s) else .error .unicodeEncodeError

/-- `BadgerDict._encode_value` (lines 218-228).  `autoPickle` is the
`auto_pickle` flag; `dumps` stands for `pickle.dumps`;
`value.encode("utf-8")` on line 223 is `pyStrEncode` and propagates its
`UnicodeEncodeError`. -/
def _encode_value (autoPickle : Bool) (dumps : PyVal → List Nat) (value : PyVal) :
    Except PyErr (List Nat) :=
  match byteLikeData value with
  | some payload => .ok (_VALUE_RAW :: payload)
  | none =>
    match value with
    | .str s =>
      match pyStrEncode s with
      | .error e => .error e
      | .ok payload => .ok (_VALUE_STR :: payload)
    | _ =>
      if !autoPickle then
        .error (.typeError (strCps "Value type is not bytes/str and auto_pickle=False."))
      else .ok (_VALUE_PICKLED :: dumps value)

/-- `BadgerDict._decode_value` (lines 230-241); `loads` stands for
`pickle.loads`.  An unknown tag returns the raw envelope unchanged. -/
def _decode_value (loads : List Nat → Except PyErr PyVal) (data : List Nat) :
    Except PyErr PyVal :=
  match data with
  | [] => .ok (.bytes [])
  | type_tag :: payload =>
    if type_tag = _VALUE_RAW then .ok (.bytes payload)
    else if type_tag = _VALUE_STR then
      match utf8Decode payload with
      | some s => .ok (.str s)
      | none => .error .unicodeDecodeError
    else if type_tag = _VALUE_PICKLED then loads payload
    else .ok (.bytes data)

/-! ## Key codec (`BadgerDict._encode_key`, source lines 207-216) -/

/-- The byte string `_encode_key` computes before its emptiness check. -/
def keyRawBytes (dumps : PyVal → List Nat) (key : PyVal) : List Nat :=
  match byteLikeData key with
  | some d => d
  | none =>
    match key with
    | .str s => utf8Encode s
    | _ => dumps key

/-- `BadgerDict._encode_key` (lines 207-216): empty encodings are rejected
with `ValueError("empty keys are not supported")`. -/
def _encode_key (dumps : PyVal → List Nat) (key : PyVal) : Except PyErr (List Nat) :=
  let data := keyRawBytes dumps key
  if data = [] then .error (.valueError (strCps "empty keys are not supported"))
  else .ok data

/-! ## The native library boundary

`NativeEnv` records what the Go shared library would answer on this call:
the handle `Open` returns, the pointer/length pair and buffer contents `Get`
yields, the statuses of `Set`/`Delete`/`Sync`/`Close`, and the diagnostic the
error register (`LastError`) holds (`none` models a NULL C string).  `NCall`
is one native invocation; each wrapper operation returns the list of native
invocations it performed, in order. -/

structure NativeEnv where
  openHandle : Nat
  getPtr : Nat
  getLen : Int
  getData : List Nat
  setStatus : Int
  deleteStatus : Int
  syncStatus : Int
  closeStatus : Int
  lastErr : Option (List Nat)
deriving DecidableEq

inductive NCall where
  | openCall (path : List Nat) (inMemory : Nat)
  | closeCall (handle : Nat)
  | setCall (handle : Nat) (key : List Nat) (value : List Nat)
  | getCall (handle : Nat) (key : List Nat)
  | deleteCall (handle : Nat) (key : List Nat)
  | syncCall (handle : Nat)
  | lastErrorCall
deriving DecidableEq

/-- The key argument of a native call, when it has one. -/
def NCall.keyArg : NCall → Option (List Nat)
  | .setCall _ k _ => some k
  | .getCall _ k => some k
  | .deleteCall _ k => some k
  | _ => none

/-- Is this native call an invocation of `Close`? -/
def NCall.isClose : NCall → Bool
  | .closeCall _ => true
  | _ => false

/-- Wrapper state: `_handle` (0 = closed) and the `auto_pickle` flag. -/
structure BD where
  handle : Nat
  autoPickle : Bool
deriving DecidableEq

/-- `BadgerError("badger dictionary is closed")`, raised by `_call`
(lines 200-205). -/
def closedMsg : List Nat := strCps "badger dictionary is closed"

/-- `BadgerDict._last_error` (lines 146-156): NULL gives `None`, an empty
decoded message also gives `None` (`return msg or None`). -/
def _last_error (env : NativeEnv) : Option (List Nat) × List NCall :=
  match env.lastErr with
  | none => (none, [.lastErrorCall])
  | some m => (if m = [] then none else some m, [.lastErrorCall])

/-- `BadgerDict._check_status` (lines 158-163). -/
def _check_status (env : NativeEnv) (status : Int) : Except PyErr Unit × List NCall :=
  if status = 0 then (.ok (), [])
  else
    let r := _last_error env
    ((.error (.badgerError (r.1.getD (strCps "unknown badger error")))), r.2)

/-- `BadgerDict._open` (lines 165-178).  `path` is the Python `str` argument
(`none` = Python `None`); `in_memory` wins and the path is then ignored. -/
def _open (env : NativeEnv) (path : Option (List Nat)) (in_memory : Bool) :
    Except PyErr Nat × List NCall :=
  let encPath : Except PyErr (List Nat) :=
    if in_memory then .ok []
    else
      match path with
      | none => .error (.valueError (strCps "A filesystem path is required unless in_memory=True"))
      | some p =>
        if p = [] then
          .error (.valueError (strCps "A filesystem path is required unless in_memory=True"))
        else .ok (utf8Encode p)
  match encPath with
  | .error e => (.error e, [])
  | .ok ep =>
    let handle := env.openHandle
    let t0 : List NCall := [.openCall ep (if in_memory then 1 else 0)]
    if handle = 0 then
      let r := _last_error env
      (.error (.badgerError (r.1.getD (strCps "failed to open badger dictionary"))), t0 ++ r.2)
    else (.ok handle, t0)

namespace BD

/-- `BadgerDict.set` (lines 243-254).  Key and value are encoded first; only
then does `_call` perform the closed-handle check. -/
def set (bd : BD) (env : NativeEnv) (dumps : PyVal → List Nat)
    (key value : PyVal) : Except PyErr Unit × List NCall :=
  match _encode_key dumps key with
  | .error e => (.error e, [])
  | .ok kb =>
    match _encode_value bd.autoPickle dumps value with
    | .error e => (.error e, [])
    | .ok vb =>
      if bd.handle = 0 then (.error (.badgerError closedMsg), [])
      else
        let status := env.setStatus
        let r := _check_status env status
        (r.1, .setCall bd.handle kb vb :: r.2)

/-- `BadgerDict.get` (lines 256-283).  `dflt` is the `default` argument and
`raise_missing` the keyword flag; a NULL pointer with zero length is
disambiguated through `_last_error` and the `"not found"` substring. -/
def get (bd : BD) (env : NativeEnv) (dumps : PyVal → List Nat)
    (loads : List Nat → Except PyErr PyVal)
    (key : PyVal) (dflt : PyVal) (raise_missing : Bool) :
    Except PyErr PyVal × List NCall :=
  match _encode_key dumps key with
  | .error e => (.error e, [])
  | .ok kb =>
    if bd.handle = 0 then (.error (.badgerError closedMsg), [])
    else
      let callT : List NCall := [.getCall bd.handle kb]
      if env.getPtr = 0 ∧ env.getLen = 0 then
        let r := _last_error env
        match r.1 with
        | some msg =>
          if listContains (strCps "not found") (pyLower msg) then
            (if raise_missing then .error .keyError else .ok dflt, callT ++ r.2)
          else (.error (.badgerError msg), callT ++ r.2)
        | none =>
          (if raise_missing then .error .keyError else .ok dflt, callT ++ r.2)
      else
        (_decode_value loads env.getData, callT)

/-- `BadgerDict.delete` (lines 285-299): `True` when a key was removed,
`False` when the engine reported "not found". -/
def delete (bd : BD) (env : NativeEnv) (dumps : PyVal → List Nat)
    (key : PyVal) : Except PyErr Bool × List NCall :=
  match _encode_key dumps key with
  | .error e => (.error e, [])
  | .ok kb =>
    if bd.handle = 0 then (.error (.badgerError closedMsg), [])
    else
      let status := env.deleteStatus
      let callT : List NCall := [.deleteCall bd.handle kb]
      if status = 0 then (.ok true, callT)
      else
        let r := _last_error env
        match r.1 with
        | some msg =>
          if listContains (strCps "not found") (pyLower msg) then
            (.ok false, callT ++ r.2)
          else
            let chk := _check_status env status
            (match chk.1 with
             | .error e => .error e
             | .ok _ => .ok true, callT ++ r.2 ++ chk.2)
        | none =>
          let chk := _check_status env status
          (match chk.1 with
           | .error e => .error e
           | .ok _ => .ok true, callT ++ r.2 ++ chk.2)

/-- `BadgerDict.sync` (lines 301-303). -/
def sync (bd : BD) (env : NativeEnv) : Except PyErr Unit × List NCall :=
  if bd.handle = 0 then (.error (.badgerError closedMsg), [])
  else
    let r := _check_status env env.syncStatus
    (r.1, .syncCall bd.handle :: r.2)

/-- `BadgerDict.close` (lines 305-311): a no-op on handle 0; otherwise the
handle is zeroed *before* the status is inspected. -/
def close (bd : BD) (env : NativeEnv) : BD × Except PyErr Unit × List NCall :=
  if bd.handle = 0 then (bd, .ok (), [])
  else
    let status := env.closeStatus
    let bd2 : BD := { bd with handle := 0 }
    if status ≠ 0 then
      let chk := _check_status env status
      (bd2, (match chk.1 with
             | .error e => .error e
             | .ok _ => .ok ()), .closeCall bd.handle :: chk.2)
    else (bd2, .ok (), [.closeCall bd.handle])

/-- `BadgerDict.__del__` (lines 313-317): best-effort close, all exceptions
swallowed. -/
def del (bd : BD) (env : NativeEnv) : BD × List NCall :=
  let r := close bd env
  (r.1, r.2.2)

end BD

/-! ## The engine's key-value state

For the object-persistence layer the engine's state is a byte-level map from
full (namespaced) keys to stored value envelopes, modelled as an association
list where a new binding shadows older ones. -/

def smGet {V : Type} (m : List (List Nat × V)) (k : List Nat) : Option V :=
  match m.find? (fun p => p.1 == k) with
  | some p => some p.2
  | none => none

def smSet {V : Type} (m : List (List Nat × V)) (k : List Nat) (v : V) :
    List (List Nat × V) :=
  (k, v) :: m

theorem smGet_smSet {V : Type} (m : List (List Nat × V)) (k : List Nat) (v : V) :
    smGet (smSet m k v) k = some v := by
  simp [smGet, smSet, List.find?_cons]

/-! ## `PersistentObject.update` (source lines 435-474)

The subclass-specific pieces are bundled in `PSubclass`:
`isInst` is `isinstance(x, cls)`; `from_record`/`to_record` are the
overridable conversion hooks; `setKey` is the `candidate.key = key`
assignment; `fmtKey` is `cls._format_key` (the pickled `(namespace, key)`
pair, an external serializer call, hence a parameter); `encodeRec`/`decodeRec`
are the store's value codec applied to records (`store[full_key] = record` /
`store.get(full_key)`).  Each hook may raise, so each returns `Except`.

A mutator is a Python callable that may mutate its argument in place and may
return a replacement: it is embedded as a function from the current object to
(the possibly in-place-mutated object, the returned value or `None`).

`writeStatus` is the status the native `Set` returns for the final write; a
failing native `Set` leaves the engine's state unchanged (the engine is the
external collaborator; status 0 = success). -/

structure PSubclass (α Rec : Type) where
  isInst : α → Bool
  from_record : Nat → Rec → Except PyErr α
  to_record : α → Except PyErr Rec
  setKey : α → Nat → α
  fmtKey : Nat → List Nat
  encodeRec : Rec → Except PyErr (List Nat)
  decodeRec : List Nat → Except PyErr Rec

/-- The `default_factory` argument: a callable or a plain (non-callable)
value (`candidate = default_factory() if callable(default_factory) else
default_factory`, line 457). -/
inductive DFactory (α : Type) where
  | callable (f : Unit → Except PyErr α)
  | plain (v : α)

/-- Outcome of one `update` call: the engine state afterwards, whether the
advisory file lock was released again, and the produced value or exception. -/
structure UpdateResult (α : Type) where
  store : List (List Nat × List Nat)
  lockReleased : Bool
  result : Except PyErr α

def dfMsg : List Nat := strCps "default_factory must produce an instance of the subclass"
def mutMsg : List Nat := strCps "mutator must return an instance of the subclass or None"

/-- `PersistentObject.update` (lines 435-474).  The body runs inside
`with cls._locked_store() as store:`; the `with` statement guarantees
`_FileLock.__exit__` → `release()` on every exit path (lines 62-67, 509-516),
so every branch reports `lockReleased := true`.  The engine state is written
only by the final `store[full_key] = current.to_record()` (line 473); every
failing branch returns the state it was given. -/
def PersistentObject.update {α Rec : Type} (S : PSubclass α Rec)
    (writeStatus : Int) (store0 : List (List Nat × List Nat)) (key : Nat)
    (default_factory : Option (DFactory α))
    (mutator : Option (α → Except PyErr (α × Option α))) : UpdateResult α :=
  let full_key := S.fmtKey key
  -- record = store.get(full_key, default=_MISSING)
  let step1 : Except PyErr α :=
    match smGet store0 full_key with
    | none =>
      match default_factory with
      | none => .error .keyError
      | some df =>
        match (match df with
               | .callable f => f ()
               | .plain v => .ok v) with
        | .error e => .error e
        | .ok candidate =>
          if ¬ S.isInst candidate then .error (.typeError dfMsg)
          else .ok (S.setKey candidate key)
    | some rb =>
      match S.decodeRec rb with
      | .error e => .error e
      | .ok record => S.from_record key record
  match step1 with
  | .error e => ⟨store0, true, .error e⟩
  | .ok current0 =>
    -- updated = mutator(current); if updated is not None: current = updated
    let step2 : Except PyErr α :=
      match mutator with
      | none => .ok current0
      | some m =>
        match m current0 with
        | .error e => .error e
        | .ok (cur, updated) => .ok (updated.getD cur)
    match step2 with
    | .error e => ⟨store0, true, .error e⟩
    | .ok current =>
      if ¬ S.isInst current then ⟨store0, true, .error (.typeError mutMsg)⟩
      else
        match S.to_record current with
        | .error e => ⟨store0, true, .error e⟩
        | .ok record =>
          match S.encodeRec record with
          | .error e => ⟨store0, true, .error e⟩
          | .ok vb =>
            if writeStatus = 0 then ⟨smSet store0 full_key vb, true, .ok current⟩
            else ⟨store0, true, .error (.badgerError (strCps "set failed"))⟩

/-! ## Interleaving semantics of concurrent `update` (counter increments)

N independent processes each run M iterations of
`Counter.increment` = `update(key, default_factory=Counter(key,0),
mutator=obj.value += 1)` against one shared store and one shared advisory
lock file (tests/test_persistent_object.py, `_counter_worker`).  Each
iteration of `update` is broken into its externally visible steps, exactly as
the source performs them inside `_locked_store`:

* `acquire`: `_FileLock.acquire` — blocking exclusive `flock`; only possible
  when no process holds the lock (lines 35-48);
* `readInc`: `store.get(full_key, _MISSING)` plus the default factory
  (`Counter(key, 0)` when missing) plus the local `obj.value += 1`
  (lines 453-468) — all local except the read;
* `write`: `store[full_key] = current.to_record()` (line 473);
* `release`: `_FileLock.release` via `__exit__` (lines 50-67), ending the
  iteration.

The store is abstracted to the decoded counter record under the one key
(`none` = key absent).  The lock preconditions on `readInc` and `write` mean
only the lock holder can read or write, which is precisely the advisory-lock
discipline of `_locked_store`. -/

inductive CPC where
  | idle
  | acquired
  | readDone (v : Nat)
  | written
deriving DecidableEq

structure CProc where
  remaining : Nat
  pc : CPC
deriving DecidableEq

structure CSys (n : Nat) where
  procs : Fin n → CProc
  counter : Option Nat
  lock : Option (Fin n)

/-- The decoded counter the read sees: a missing key materializes
`Counter(key, 0)` through the default factory. -/
def counterVal {n : Nat} (s : CSys n) : Nat := s.counter.getD 0

/-- One step of one process's `Counter.increment` loop. -/
inductive CStep {n : Nat} : CSys n → CSys n → Prop where
  | acquire (s : CSys n) (i : Fin n) :
      s.lock = none → (s.procs i).pc = .idle → 0 < (s.procs i).remaining →
      CStep s { s with lock := some i,
                       procs := Function.update s.procs i
                         { s.procs i with pc := .acquired } }
  | readInc (s : CSys n) (i : Fin n) :
      s.lock = some i → (s.procs i).pc = .acquired →
      CStep s { s with procs := Function.update s.procs i
                         { s.procs i with pc := .readDone (counterVal s + 1) } }
  | write (s : CSys n) (i : Fin n) (v : Nat) :
      s.lock = some i → (s.procs i).pc = .readDone v →
      CStep s { s with counter := some v,
                       procs := Function.update s.procs i
                         { s.procs i with pc := .written } }
  | release (s : CSys n) (i : Fin n) :
      s.lock = some i → (s.procs i).pc = .written →
      CStep s { s with lock := none,
                       procs := Function.update s.procs i
                         { remaining := (s.procs i).remaining - 1, pc := .idle } }

/-- Initial state: every process has M increments to go, the counter key is
absent, nobody holds the lock. -/
def cInit (n M : Nat) : CSys n :=
  { procs := fun _ => { remaining := M, pc := .idle }, counter := none, lock := none }

/-- Increments process `p` has durably committed (its write step has
happened), out of its budget of `M`. -/
def committed (M : Nat) (p : CProc) : Nat :=
  (M - p.remaining) + (if p.pc = .written then 1 else 0)

/-- The inductive invariant: the stored counter equals the total number of
committed increments; any non-idle process holds the lock (hence at most one
is mid-critical-section); a process that has read holds `stored + 1`
locally; non-idle processes still have budget. -/
structure CInv (n M : Nat) (s : CSys n) : Prop where
  counter_eq : counterVal s = ∑ i, committed M (s.procs i)
  rem_le : ∀ i, (s.procs i).remaining ≤ M
  holds_lock : ∀ i, (s.procs i).pc ≠ .idle → s.lock = some i
  rem_pos : ∀ i, (s.procs i).pc ≠ .idle → 1 ≤ (s.procs i).remaining
  read_val : ∀ i v, (s.procs i).pc = .readDone v → v = counterVal s + 1

/-- Demonstration states: one process performing one locked increment,
step by step from `cInit 1 1`. -/
def cW1 : CSys 1 :=
  { cInit 1 1 with
      lock := some 0,
      procs := Function.update (cInit 1 1).procs 0
        { (cInit 1 1).procs 0 with pc := .acquired } }

def cW2 : CSys 1 :=
  { cW1 with
      procs := Function.update cW1.procs 0
        { cW1.procs 0 with pc := .readDone 1 } }

def cW3 : CSys 1 :=
  { cW2 with
      counter := some 1,
      procs := Function.update cW2.procs 0 { cW2.procs 0 with pc := .written } }

def cW4 : CSys 1 :=
  { cW3 with
      lock := none,
      procs := Function.update cW3.procs 0
        { remaining := (cW3.procs 0).remaining - 1, pc := .idle } }

/-! ## The dict-like facade's `default_factory` (claim C8)

`Modelled from the spec:` the subscript-get with a `default_factory`
attribute belongs to the `SkyShelve` dict-like facade, which is exercised by
tests/test_sky_default_factory.py but whose module is not among the sources
under src/.  Spec §4.6: "subscript-get on a missing key: if a
`default_factory` attribute is set, synthesize, store, and return the default
exactly once per miss (subsequent reads of the same key return the stored
default, factory not re-invoked); if unset, fails with a 'missing key'
error."  `factoryCalls` counts how often the factory ran during the call. -/

structure FacadeGetOut (V : Type) where
  store : List (List Nat × V)
  result : Except PyErr V
  factoryCalls : Nat

/-- Modelled from the spec: subscript-get on the dict-like facade with an
optional `default_factory` attribute (spec §4.6 and §8; the implementing
`SkyShelve.__getitem__` is not under src/). -/
def facadeGetItem {V : Type} (default_factory : Option (Unit → V))
    (store : List (List Nat × V)) (key : List Nat) : FacadeGetOut V :=
  match smGet store key with
  | some v => ⟨store, .ok v, 0⟩
  | none =>
    match default_factory with
    | none => ⟨store, .error .keyError, 0⟩
    | some f =>
      let v := f ()
      ⟨smSet store key v, .ok v, 1⟩

/-! ## Claim theorems -/

theorem cinv_init (n M : Nat) : CInv n M (cInit n M) := by
  refine ⟨?_, ?_, ?_, ?_, ?_⟩
  · simp [counterVal, cInit, committed]
  · intro i; simp [cInit]
  · intro i hi; simp [cInit] at hi
  · intro i hi; simp [cInit] at hi
  · intro i v hv; simp [cInit] at hv

theorem cinv_step {n M : Nat} {s t : CSys n} (hs : CInv n M s) (hstep : CStep s t) :
    CInv n M t := by
  cases hstep with
  | acquire i hl hpc hrem =>
    refine ⟨?_, ?_, ?_, ?_, ?_⟩ <;> dsimp only
    · have hupd : ∀ j, committed M (Function.update s.procs i
          { remaining := (s.procs i).remaining, pc := CPC.acquired } j) =
          committed M (s.procs j) := by
        intro j
        rcases eq_or_ne j i with rfl | hj
        · rw [Function.update_same]
          simp [committed, hpc]
        · rw [Function.update_noteq hj]
      show counterVal s = _
      simp only [hupd]
      exact hs.counter_eq
    · intro j
      rcases eq_or_ne j i with rfl | hj
      · rw [Function.update_same]; exact hs.rem_le j
      · rw [Function.update_noteq hj]; exact hs.rem_le j
    · intro j hj
      rcases eq_or_ne j i with rfl | hji
      · rfl
      · rw [Function.update_noteq hji] at hj
        have := hs.holds_lock j hj
        rw [hl] at this
        cases this
    · intro j hj
      rcases eq_or_ne j i with rfl | hji
      · rw [Function.update_same]
        exact hrem
      · rw [Function.update_noteq hji] at hj ⊢
        exact hs.rem_pos j hj
    · intro j v hv
      rcases eq_or_ne j i with rfl | hji
      · rw [Function.update_same] at hv
        cases hv
      · rw [Function.update_noteq hji] at hv
        have := hs.holds_lock j (by rw [hv]; intro h2; cases h2)
        rw [hl] at this
        cases this
  | readInc i hl hpc =>
    refine ⟨?_, ?_, ?_, ?_, ?_⟩ <;> dsimp only
    · have hupd : ∀ j, committed M (Function.update s.procs i
          { remaining := (s.procs i).remaining, pc := CPC.readDone (counterVal s + 1) } j) =
          committed M (s.procs j) := by
        intro j
        rcases eq_or_ne j i with rfl | hj
        · rw [Function.update_same]
          simp [committed, hpc]
        · rw [Function.update_noteq hj]
      show counterVal s = _
      simp only [hupd]
      exact hs.counter_eq
    · intro j
      rcases eq_or_ne j i with rfl | hj
      · rw [Function.update_same]; exact hs.rem_le j
      · rw [Function.update_noteq hj]; exact hs.rem_le j
    · intro j hj
      rcases eq_or_ne j i with rfl | hji
      · exact hl
      · rw [Function.update_noteq hji] at hj
        exact hs.holds_lock j hj
    · intro j hj
      rcases eq_or_ne j i with rfl | hji
      · rw [Function.update_same]
        exact hs.rem_pos j (by rw [hpc]; intro h2; cases h2)
      · rw [Function.update_noteq hji] at hj ⊢
        exact hs.rem_pos j hj
    · intro j v hv
      rcases eq_or_ne j i with rfl | hji
      · rw [Function.update_same] at hv
        cases hv
        rfl
      · rw [Function.update_noteq hji] at hv
        have h2 := hs.holds_lock j (by rw [hv]; intro h3; cases h3)
        rw [hl] at h2
        injection h2 with h3
        exact absurd h3.symm hji
  | write i v hl hpc =>
    have hv := hs.read_val i v hpc
    refine ⟨?_, ?_, ?_, ?_, ?_⟩ <;> dsimp only
    · show v = _
      have hnew : ∑ j, committed M (Function.update s.procs i
            { remaining := (s.procs i).remaining, pc := CPC.written } j) =
          committed M ({ remaining := (s.procs i).remaining, pc := CPC.written } : CProc) +
            ∑ j in Finset.univ.erase i, committed M (s.procs j) := by
        rw [← Finset.add_sum_erase _
          (fun j => committed M (Function.update s.procs i
            { remaining := (s.procs i).remaining, pc := CPC.written } j))
          (Finset.mem_univ i)]
        congr 1
        · rw [Function.update_same]
        · exact Finset.sum_congr rfl (fun j hj => by
            rw [Function.update_noteq (Finset.ne_of_mem_erase hj)])
      have hold : counterVal s = committed M (s.procs i) +
          ∑ j in Finset.univ.erase i, committed M (s.procs j) := by
        rw [hs.counter_eq, ← Finset.add_sum_erase _ _ (Finset.mem_univ i)]
      have hci : committed M ({ remaining := (s.procs i).remaining, pc := CPC.written } : CProc) =
          committed M (s.procs i) + 1 := by
        simp [committed, hpc]
      rw [hnew, hci]
      omega
    · intro j
      rcases eq_or_ne j i with rfl | hj
      · rw [Function.update_same]; exact hs.rem_le j
      · rw [Function.update_noteq hj]; exact hs.rem_le j
    · intro j hj
      rcases eq_or_ne j i with rfl | hji
      · exact hl
      · rw [Function.update_noteq hji] at hj
        exact hs.holds_lock j hj
    · intro j hj
      rcases eq_or_ne j i with rfl | hji
      · rw [Function.update_same]
        exact hs.rem_pos j (by rw [hpc]; intro h2; cases h2)
      · rw [Function.update_noteq hji] at hj ⊢
        exact hs.rem_pos j hj
    · intro j w hw
      rcases eq_or_ne j i with rfl | hji
      · rw [Function.update_same] at hw
        cases hw
      · rw [Function.update_noteq hji] at hw
        have h2 := hs.holds_lock j (by rw [hw]; intro h3; cases h3)
        rw [hl] at h2
        injection h2 with h3
        exact absurd h3.symm hji
  | release i hl hpc =>
    have hrp := hs.rem_pos i (by rw [hpc]; intro h2; cases h2)
    have hrl := hs.rem_le i
    refine ⟨?_, ?_, ?_, ?_, ?_⟩ <;> dsimp only
    · have hupd : ∀ j, committed M (Function.update s.procs i
          { remaining := (s.procs i).remaining - 1, pc := CPC.idle } j) =
          committed M (s.procs j) := by
        intro j
        rcases eq_or_ne j i with rfl | hj
        · rw [Function.update_same]
          simp only [committed, hpc]
          simp only [show (CPC.idle = CPC.written) = False by simp,
            show (CPC.written = CPC.written) = True by simp, if_false, if_true]
          omega
        · rw [Function.update_noteq hj]
      show counterVal s = _
      simp only [hupd]
      exact hs.counter_eq
    · intro j
      rcases eq_or_ne j i with rfl | hj
      · rw [Function.update_same]
        dsimp only
        omega
      · rw [Function.update_noteq hj]; exact hs.rem_le j
    · intro j hj
      rcases eq_or_ne j i with rfl | hji
      · rw [Function.update_same] at hj
        exact absurd rfl hj
      · rw [Function.update_noteq hji] at hj
        have h2 := hs.holds_lock j hj
        rw [hl] at h2
        injection h2 with h3
        exact absurd h3.symm hji
    · intro j hj
      rcases eq_or_ne j i with rfl | hji
      · rw [Function.update_same] at hj
        exact absurd rfl hj
      · rw [Function.update_noteq hji] at hj ⊢
        exact hs.rem_pos j hj
    · intro j w hw
      rcases eq_or_ne j i with rfl | hji
      · rw [Function.update_same] at hw
        cases hw
      · rw [Function.update_noteq hji] at hw
        have h2 := hs.holds_lock j (by rw [hw]; intro h3; cases h3)
        rw [hl] at h2
        injection h2 with h3
        exact absurd h3.symm hji

theorem cinv_reach {n M : Nat} {s : CSys n}
    (h : Relation.ReflTransGen CStep (cInit n M) s) : CInv n M s := by
  induction h with
  | refl => exact cinv_init n M
  | tail _ hstep ih => exact cinv_step ih hstep

/-- C2: When N processes each perform M increments of the same counter key
via `PersistentObject.update`, every update acquiring the same shared
advisory lock file, the final stored value is exactly N×M under every
interleaving: the lock discipline makes interleaving two read-modify-write
sequences impossible. -/
theorem C2_update_counter_atomic (n M : Nat) (hn : 0 < n) (hM : 0 < M)
    (s : CSys n) (hreach : Relation.ReflTransGen CStep (cInit n M) s)
    (hfin : ∀ i, (s.procs i).remaining = 0 ∧ (s.procs i).pc = .idle) :
    s.counter = some (n * M) := by
  have hinv := cinv_reach hreach
  have hc : ∀ i : Fin n, committed M (s.procs i) = M := by
    intro i
    simp [committed, (hfin i).1, (hfin i).2]
  have hsum : counterVal s = n * M := by
    rw [hinv.counter_eq, Finset.sum_congr rfl (fun i _ => hc i)]
    simp [Finset.sum_const, Finset.card_univ, Fintype.card_fin, smul_eq_mul]
  cases hcounter : s.counter with
  | none =>
    exfalso
    rw [counterVal, hcounter] at hsum
    simp at hsum
    have := Nat.mul_pos hn hM
    omega
  | some v =>
    rw [counterVal, hcounter] at hsum
    simp at hsum
    rw [hsum]

theorem C2_update_counter_atomic_witness :
    ∃ s : CSys 1, Relation.ReflTransGen CStep (cInit 1 1) s ∧
      s.counter = some (1 * 1) := by
  have hchain : Relation.ReflTransGen CStep (cInit 1 1) cW4 :=
    Relation.ReflTransGen.head (CStep.acquire (cInit 1 1) 0 rfl rfl (by decide))
      (Relation.ReflTransGen.head (CStep.readInc cW1 0 (by decide) (by decide))
        (Relation.ReflTransGen.head (CStep.write cW2 0 1 (by decide) (by decide))
          (Relation.ReflTransGen.head (CStep.release cW3 0 (by decide) (by decide))
            Relation.ReflTransGen.refl)))
  exact ⟨cW4, hchain,
    C2_update_counter_atomic 1 1 (by decide) (by decide) cW4 hchain
      (by
        intro i
        have h0 : i = 0 := Fin.fin_one_eq_zero i
        subst h0
        exact ⟨by decide, by decide⟩)⟩

/-- C3 counterexample: the text string `"\ud800"` (a lone surrogate — a real
Python `str` value) makes `value.encode("utf-8")` raise `UnicodeEncodeError`,
so `decode(encode(v)) == v` fails for it: encoding yields no bytes at all. -/
theorem C3_surrogate_counterexample :
    _encode_value true (fun _ => [0]) (.str [0xD800]) =
      .error .unicodeEncodeError ∧
    ¬ ∃ enc w, _encode_value true (fun _ => [0]) (.str [0xD800]) = .ok enc ∧
      _decode_value (fun _ => .error .pickleError) enc = .ok w ∧
      pyEq w (.str [0xD800]) = true := by
  refine ⟨rfl, ?_⟩
  rintro ⟨enc, w, he, -, -⟩
  rw [(rfl : _encode_value true (fun _ => [0]) (.str [0xD800]) =
    .error .unicodeEncodeError)] at he
  cases he

/-- C3 (amended): for every byte-like value (`bytes`, `bytearray`,
`memoryview`), every text string consisting of Unicode scalar values (a lone
surrogate makes the encode step raise `UnicodeEncodeError` instead), and
every value the generic serializer supports (with auto-pickling enabled),
decoding the encoding returns a value Python-equal to the original:
`decode(encode(v)) == v`.  Supported-by-the-serializer means
`pickle.loads (pickle.dumps v)` yields a value equal to `v`. -/
theorem C3_decode_encode_roundtrip
    (dumps : PyVal → List Nat) (loads : List Nat → Except PyErr PyVal) (v : PyVal)
    (hstr : ∀ s, v = .str s → ∀ c ∈ s, isScalar c = true)
    (hsupp : byteLikeData v = none → (∀ s, v ≠ .str s) →
      ∃ w, loads (dumps v) = .ok w ∧ pyEq w v = true) :
    ∃ enc w, _encode_value true dumps v = .ok enc ∧
      _decode_value loads enc = .ok w ∧ pyEq w v = true := by
  cases v with
  | bytes d =>
    exact ⟨_VALUE_RAW :: d, .bytes d, rfl, rfl, by simp [pyEq, byteLikeData]⟩
  | bytearray d =>
    exact ⟨_VALUE_RAW :: d, .bytes d, rfl, rfl, by simp [pyEq, byteLikeData]⟩
  | memview d =>
    exact ⟨_VALUE_RAW :: d, .bytes d, rfl, rfl, by simp [pyEq, byteLikeData]⟩
  | str s =>
    have hsc : ∀ c ∈ s, isScalar c = true := hstr s rfl
    have hall : s.all isScalar = true := List.all_eq_true.mpr hsc
    have henc : pyStrEncode s = .ok (utf8Encode s) := by
      unfold pyStrEncode
      rw [if_pos hall]
    have hlt : ∀ c ∈ s, c < 0x110000 := by
      intro c hc
      have := hsc c hc
      simp only [isScalar, decide_eq_true_eq] at this
      omega
    refine ⟨_VALUE_STR :: utf8Encode s, .str s, ?_, ?_, by simp [pyEq, byteLikeData]⟩
    · unfold _encode_value
      simp only [byteLikeData, henc]
    · simp only [_decode_value, _VALUE_STR, _VALUE_RAW, _VALUE_PICKLED]
      norm_num
      rw [utf8Decode_utf8Encode s hlt]
  | pynone =>
    obtain ⟨w, hw, hweq⟩ := hsupp rfl (fun s h => by cases h)
    exact ⟨_VALUE_PICKLED :: dumps .pynone, w, rfl, hw, hweq⟩
  | obj n =>
    obtain ⟨w, hw, hweq⟩ := hsupp rfl (fun s h => by cases h)
    exact ⟨_VALUE_PICKLED :: dumps (.obj n), w, rfl, hw, hweq⟩

theorem C3_decode_encode_roundtrip_witness :
    ∃ enc w, _encode_value true (fun _ => [0]) (.str (strCps "hi")) = .ok enc ∧
      _decode_value (fun _ => .error .pickleError) enc = .ok w ∧
      pyEq w (.str (strCps "hi")) = true :=
  C3_decode_encode_roundtrip (fun _ => [0]) (fun _ => .error .pickleError)
    (.str (strCps "hi"))
    (by intro s h; injection h with h2; subst h2; decide)
    (by intro _ h2; exact absurd rfl (h2 _))

/-- Every run of `update` either fails leaving the store untouched, or
succeeds having performed exactly the one final write; the lock is released
either way. -/
theorem update_cases {α Rec : Type} (S : PSubclass α Rec)
    (ws : Int) (store0 : List (List Nat × List Nat)) (key : Nat)
    (df : Option (DFactory α)) (mtr : Option (α → Except PyErr (α × Option α))) :
    (∃ e, PersistentObject.update S ws store0 key df mtr =
      ⟨store0, true, .error e⟩) ∨
    (∃ vb cur, PersistentObject.update S ws store0 key df mtr =
      ⟨smSet store0 (S.fmtKey key) vb, true, .ok cur⟩) := by
  unfold PersistentObject.update
  dsimp only
  repeat' split
  all_goals first
    | exact Or.inl ⟨_, rfl⟩
    | exact Or.inr ⟨_, _, rfl⟩

/-- C1: For every invocation of `PersistentObject.update`, if any step after
lock acquisition fails (default-factory call or type check, record decoding,
the mutator call, the final type check, value encoding, or the final write),
the previously stored record is unchanged and the advisory file lock is still
released; the error propagates, no partial state is committed. -/
theorem C1_update_no_partial_commit {α Rec : Type} (S : PSubclass α Rec)
    (ws : Int) (store0 : List (List Nat × List Nat)) (key : Nat)
    (df : Option (DFactory α)) (mtr : Option (α → Except PyErr (α × Option α))) :
    (PersistentObject.update S ws store0 key df mtr).lockReleased = true ∧
    ∀ e, (PersistentObject.update S ws store0 key df mtr).result = .error e →
      (PersistentObject.update S ws store0 key df mtr).store = store0 := by
  rcases update_cases S ws store0 key df mtr with ⟨e, hu⟩ | ⟨vb, cur, hu⟩ <;>
    rw [hu]
  · exact ⟨rfl, fun _ _ => rfl⟩
  · exact ⟨rfl, fun e he => by cases he⟩

theorem C1_update_no_partial_commit_witness :
    0 < (1 : Nat) ∧
    ((PersistentObject.update
        (⟨fun _ => true, fun _ r => .ok r, fun a => .ok a, fun a _ => a,
          fun k => [k], fun r => .ok [r], fun l => .ok l.length⟩ :
            PSubclass Nat Nat)
        0 [([5], [7])] 5 none
        (some (fun _ => .error .pickleError))).store = [([5], [7])] ∧
      (PersistentObject.update
        (⟨fun _ => true, fun _ r => .ok r, fun a => .ok a, fun a _ => a,
          fun k => [k], fun r => .ok [r], fun l => .ok l.length⟩ :
            PSubclass Nat Nat)
        0 [([5], [7])] 5 none
        (some (fun _ => .error .pickleError))).lockReleased = true) :=
  ⟨Nat.one_pos,
    (C1_update_no_partial_commit _ 0 [([5], [7])] 5 none
        (some (fun _ => .error .pickleError))).2 .pickleError rfl,
    (C1_update_no_partial_commit _ 0 [([5], [7])] 5 none
        (some (fun _ => .error .pickleError))).1⟩

/-- C4: In `PersistentObject.update`, when the mutator returns a non-`None`
value that value becomes the new current value; when it returns `None` the
(possibly in-place-mutated) current value is used; if the final value is not
an instance of the expected subclass, `update` fails with a type error; and
otherwise `update` stores the final value's record and returns it. -/
theorem C4_update_mutator_semantics {α Rec : Type} (S : PSubclass α Rec)
    (ws : Int) (store0 : List (List Nat × List Nat)) (key : Nat)
    (df : Option (DFactory α)) (m : α → Except PyErr (α × Option α))
    (rb : List Nat) (record : Rec) (current curM : α) (ret : Option α)
    (hget : smGet store0 (S.fmtKey key) = some rb)
    (hdec : S.decodeRec rb = .ok record)
    (hfrom : S.from_record key record = .ok current)
    (hmut : m current = .ok (curM, ret)) :
    (S.isInst (ret.getD curM) = false →
      (PersistentObject.update S ws store0 key df (some m)).result =
        .error (.typeError mutMsg) ∧
      (PersistentObject.update S ws store0 key df (some m)).store = store0) ∧
    (∀ r, ret = some r → S.isInst r = true →
      ∀ rec2 vb, S.to_record r = .ok rec2 → S.encodeRec rec2 = .ok vb →
      (PersistentObject.update S 0 store0 key df (some m)).result = .ok r ∧
      (PersistentObject.update S 0 store0 key df (some m)).store =
        smSet store0 (S.fmtKey key) vb) ∧
    (ret = none → S.isInst curM = true →
      ∀ rec2 vb, S.to_record curM = .ok rec2 → S.encodeRec rec2 = .ok vb →
      (PersistentObject.update S 0 store0 key df (some m)).result = .ok curM ∧
      (PersistentObject.update S 0 store0 key df (some m)).store =
        smSet store0 (S.fmtKey key) vb) := by
  refine ⟨?_, ?_, ?_⟩
  · intro hinst
    unfold PersistentObject.update
    simp only [hget, hdec, hfrom, hmut, hinst]
    simp
  · intro r hr hinst rec2 vb hrec hvb
    subst hr
    unfold PersistentObject.update
    simp only [hget, hdec, hfrom, hmut, Option.getD, hinst, hrec, hvb]
    simp
  · intro hr hinst rec2 vb hrec hvb
    subst hr
    unfold PersistentObject.update
    simp only [hget, hdec, hfrom, hmut, Option.getD, hinst, hrec, hvb]
    simp

theorem C4_update_mutator_semantics_witness :
    (PersistentObject.update
        (⟨fun _ => true, fun _ r => .ok r, fun a => .ok a, fun a _ => a,
          fun k => [k], fun r => .ok [r], fun l => .ok l.length⟩ :
            PSubclass Nat Nat)
        0 [([5], [7])] 5 none
        (some (fun c => .ok (c, some (c + 1))))).result = .ok 2 ∧
    (PersistentObject.update
        (⟨fun _ => true, fun _ r => .ok r, fun a => .ok a, fun a _ => a,
          fun k => [k], fun r => .ok [r], fun l => .ok l.length⟩ :
            PSubclass Nat Nat)
        0 [([5], [7])] 5 none
        (some (fun c => .ok (c, some (c + 1))))).store =
      smSet [([5], [7])] [5] [2] :=
  (C4_update_mutator_semantics
      (⟨fun _ => true, fun _ r => .ok r, fun a => .ok a, fun a _ => a,
        fun k => [k], fun r => .ok [r], fun l => .ok l.length⟩ :
          PSubclass Nat Nat)
      0 [([5], [7])] 5 none (fun c => .ok (c, some (c + 1)))
      [7] 1 1 1 (some 2) rfl rfl rfl rfl).2.1 2 rfl rfl 2 [2] rfl rfl

/-- A successful key encoding is the raw key bytes, and those are non-empty. -/
theorem _encode_key_ok {dumps : PyVal → List Nat} {key : PyVal} {kb : List Nat}
    (h : _encode_key dumps key = .ok kb) :
    kb = keyRawBytes dumps key ∧ kb ≠ [] := by
  unfold _encode_key at h
  dsimp only at h
  by_cases hd : keyRawBytes dumps key = []
  · rw [if_pos hd] at h; cases h
  · rw [if_neg hd] at h
    injection h with h2
    subst h2
    exact ⟨rfl, hd⟩

/-- The native-call traces `set` can produce. -/
theorem BD.set_trace (bd : BD) (env : NativeEnv) (dumps : PyVal → List Nat)
    (key value : PyVal) :
    (BD.set bd env dumps key value).2 = [] ∨
    ∃ kb vb, _encode_key dumps key = .ok kb ∧
      ((BD.set bd env dumps key value).2 = [.setCall bd.handle kb vb] ∨
       (BD.set bd env dumps key value).2 =
         [.setCall bd.handle kb vb, .lastErrorCall]) := by
  unfold BD.set _check_status _last_error
  dsimp only
  repeat' split
  all_goals first
    | exact Or.inl rfl
    | exact Or.inr ⟨_, _, by assumption, Or.inl rfl⟩
    | exact Or.inr ⟨_, _, by assumption, Or.inr rfl⟩

/-- The native-call traces `get` can produce. -/
theorem BD.get_trace (bd : BD) (env : NativeEnv) (dumps : PyVal → List Nat)
    (loads : List Nat → Except PyErr PyVal) (key dflt : PyVal) (rm : Bool) :
    (BD.get bd env dumps loads key dflt rm).2 = [] ∨
    ∃ kb, _encode_key dumps key = .ok kb ∧
      ((BD.get bd env dumps loads key dflt rm).2 = [.getCall bd.handle kb] ∨
       (BD.get bd env dumps loads key dflt rm).2 =
         [.getCall bd.handle kb, .lastErrorCall]) := by
  unfold BD.get _last_error
  dsimp only
  repeat' split
  all_goals first
    | exact Or.inl rfl
    | exact Or.inr ⟨_, by assumption, Or.inl rfl⟩
    | exact Or.inr ⟨_, by assumption, Or.inr rfl⟩

/-- The native-call traces `delete` can produce. -/
theorem BD.delete_trace (bd : BD) (env : NativeEnv) (dumps : PyVal → List Nat)
    (key : PyVal) :
    (BD.delete bd env dumps key).2 = [] ∨
    ∃ kb, _encode_key dumps key = .ok kb ∧
      ((BD.delete bd env dumps key).2 = [.deleteCall bd.handle kb] ∨
       (BD.delete bd env dumps key).2 =
         [.deleteCall bd.handle kb, .lastErrorCall] ∨
       (BD.delete bd env dumps key).2 =
         [.deleteCall bd.handle kb, .lastErrorCall, .lastErrorCall]) := by
  unfold BD.delete _check_status _last_error
  dsimp only
  repeat' split
  all_goals first
    | exact Or.inl rfl
    | exact Or.inr ⟨_, by assumption, Or.inl rfl⟩
    | exact Or.inr ⟨_, by assumption, Or.inr (Or.inl rfl)⟩
    | exact Or.inr ⟨_, by assumption, Or.inr (Or.inr rfl)⟩

/-- C8: On the dict-like facade, subscript-get of a missing key with a
`default_factory` set invokes the factory exactly once, stores the produced
default, and returns it; a second subscript-get of the same key returns the
stored value without invoking the factory again; with no `default_factory`,
subscript-get of a missing key fails with a missing-key error.  (The facade's
`default_factory` subscript-get is modelled from the spec, §4.6/§8; its
module is not among the sources under src/.) -/
theorem C8_facade_default_factory {V : Type} (f : Unit → V)
    (store : List (List Nat × V)) (key : List Nat)
    (hmiss : smGet store key = none) :
    (facadeGetItem (some f) store key).factoryCalls = 1 ∧
    (facadeGetItem (some f) store key).result = .ok (f ()) ∧
    smGet (facadeGetItem (some f) store key).store key = some (f ()) ∧
    (facadeGetItem (some f) (facadeGetItem (some f) store key).store key).factoryCalls = 0 ∧
    (facadeGetItem (some f) (facadeGetItem (some f) store key).store key).result = .ok (f ()) ∧
    (facadeGetItem none store key).result = .error .keyError := by
  have h1 : facadeGetItem (some f) store key =
      ⟨smSet store key (f ()), .ok (f ()), 1⟩ := by
    unfold facadeGetItem
    rw [hmiss]
  have h2 : smGet (smSet store key (f ())) key = some (f ()) :=
    smGet_smSet store key (f ())
  have h3 : facadeGetItem (some f) (smSet store key (f ())) key =
      ⟨smSet store key (f ()), .ok (f ()), 0⟩ := by
    unfold facadeGetItem
    rw [h2]
  have h4 : facadeGetItem (none : Option (Unit → V)) store key =
      ⟨store, .error .keyError, 0⟩ := by
    unfold facadeGetItem
    rw [hmiss]
  rw [h1, h3, h4]
  exact ⟨rfl, rfl, h2, rfl, rfl, rfl⟩

theorem C8_facade_default_factory_witness :
    (facadeGetItem (some fun _ => (7 : Nat)) [] [1]).factoryCalls = 1 ∧
    (facadeGetItem (some fun _ => (7 : Nat)) [] [1]).result = .ok 7 ∧
    smGet (facadeGetItem (some fun _ => (7 : Nat)) [] [1]).store [1] = some 7 ∧
    (facadeGetItem (some fun _ => (7 : Nat))
      (facadeGetItem (some fun _ => (7 : Nat)) [] [1]).store [1]).factoryCalls = 0 ∧
    (facadeGetItem (some fun _ => (7 : Nat))
      (facadeGetItem (some fun _ => (7 : Nat)) [] [1]).store [1]).result = .ok 7 ∧
    (facadeGetItem (none : Option (Unit → Nat)) [] [1]).result = .error .keyError :=
  C8_facade_default_factory (fun _ => (7 : Nat)) [] [1] rfl

/-- A non-zero status always turns into a `BadgerError` carrying the error
register's diagnostic (or the fallback text). -/
theorem _check_status_nz (env : NativeEnv) {status : Int} (h : status ≠ 0) :
    (_check_status env status).1 =
      .error (.badgerError ((_last_error env).1.getD (strCps "unknown badger error"))) := by
  unfold _check_status
  rw [if_neg h]

/-- `set` on a closed store, with both encodings succeeding, raises the
"closed" error without a native call. -/
theorem BD.set_closed {bd : BD} (env : NativeEnv) {dumps : PyVal → List Nat}
    {key : PyVal} (value : PyVal) (h0 : bd.handle = 0) {kb vb : List Nat}
    (hk : _encode_key dumps key = .ok kb)
    (hv : _encode_value bd.autoPickle dumps value = .ok vb) :
    BD.set bd env dumps key value = (.error (.badgerError closedMsg), []) := by
  unfold BD.set
  simp only [hk, hv, h0, if_pos]

/-- `get` on a closed store, with the key encoding succeeding, raises the
"closed" error without a native call. -/
theorem BD.get_closed {bd : BD} (env : NativeEnv) {dumps : PyVal → List Nat}
    (loads : List Nat → Except PyErr PyVal) {key : PyVal} (dflt : PyVal)
    (rm : Bool) (h0 : bd.handle = 0) {kb : List Nat}
    (hk : _encode_key dumps key = .ok kb) :
    BD.get bd env dumps loads key dflt rm = (.error (.badgerError closedMsg), []) := by
  unfold BD.get
  simp only [hk, h0, if_pos]

/-- `delete` on a closed store, with the key encoding succeeding, raises the
"closed" error without a native call. -/
theorem BD.delete_closed {bd : BD} (env : NativeEnv) {dumps : PyVal → List Nat}
    {key : PyVal} (h0 : bd.handle = 0) {kb : List Nat}
    (hk : _encode_key dumps key = .ok kb) :
    BD.delete bd env dumps key = (.error (.badgerError closedMsg), []) := by
  unfold BD.delete
  simp only [hk, h0, if_pos]

/-- `sync` on a closed store raises the "closed" error without a native
call. -/
theorem BD.sync_closed {bd : BD} (env : NativeEnv) (h0 : bd.handle = 0) :
    BD.sync bd env = (.error (.badgerError closedMsg), []) := by
  unfold BD.sync
  simp only [h0, if_pos]

/-- `close` on a closed store is a no-op with no native call. -/
theorem BD.close_closed {bd : BD} (env : NativeEnv) (h0 : bd.handle = 0) :
    BD.close bd env = (bd, .ok (), []) := by
  unfold BD.close
  simp only [h0, if_pos]

/-- C5: For every `get` call where the native `Get` returns a null pointer
with zero length and the error register yields a message: if the message
contains the case-insensitive substring "not found", `get` treats the key as
missing (returning the default, or raising `KeyError` when `raise_missing`);
any other message raises `BadgerError` — the substring check alone decides
between the two outcomes. -/
theorem C5_get_not_found_sole_classifier
    (bd : BD) (env : NativeEnv) (dumps : PyVal → List Nat)
    (loads : List Nat → Except PyErr PyVal)
    (key dflt : PyVal) (rm : Bool) (kb : List Nat)
    (hk : _encode_key dumps key = .ok kb) (hh : bd.handle ≠ 0)
    (hptr : env.getPtr = 0) (hlen : env.getLen = 0)
    (m : List Nat) (hm : env.lastErr = some m) (hm0 : m ≠ []) :
    (listContains (strCps "not found") (pyLower m) = true →
      (BD.get bd env dumps loads key dflt rm).1 =
        if rm then .error .keyError else .ok dflt) ∧
    (listContains (strCps "not found") (pyLower m) = false →
      (BD.get bd env dumps loads key dflt rm).1 = .error (.badgerError m)) := by
  have hle : _last_error env = (some m, [.lastErrorCall]) := by
    unfold _last_error
    simp only [hm]
    rw [if_neg hm0]
  unfold BD.get
  simp only [hk, if_neg hh, hptr, hlen, and_self, if_true, hle]
  constructor <;> intro hnf <;> simp [hnf]

theorem C5_get_not_found_sole_classifier_witness :
    (listContains (strCps "not found")
        (pyLower (strCps "Key not found")) = true →
      (BD.get ⟨3, true⟩ ⟨0, 0, 0, [], 0, 0, 0, 0, some (strCps "Key not found")⟩
          (fun _ => [0]) (fun _ => .error .pickleError)
          (.bytes [9]) .pynone false).1 = if false then .error .keyError else .ok .pynone) ∧
    (listContains (strCps "not found")
        (pyLower (strCps "Key not found")) = false →
      (BD.get ⟨3, true⟩ ⟨0, 0, 0, [], 0, 0, 0, 0, some (strCps "Key not found")⟩
          (fun _ => [0]) (fun _ => .error .pickleError)
          (.bytes [9]) .pynone false).1 = .error (.badgerError (strCps "Key not found"))) :=
  C5_get_not_found_sole_classifier ⟨3, true⟩
    ⟨0, 0, 0, [], 0, 0, 0, 0, some (strCps "Key not found")⟩
    (fun _ => [0]) (fun _ => .error .pickleError) (.bytes [9]) .pynone false
    [9] rfl (by decide) rfl rfl (strCps "Key not found") rfl (by decide)

/-- C7: Every `set`, `get`, or `delete` call whose key encodes to an empty
byte sequence is rejected with the encoding `ValueError` before any native
call is made, and every key appearing in any native call these operations
perform is non-empty. -/
theorem C7_empty_key_rejected
    (bd : BD) (env : NativeEnv) (dumps : PyVal → List Nat)
    (loads : List Nat → Except PyErr PyVal)
    (key value dflt : PyVal) (rm : Bool) :
    (keyRawBytes dumps key = [] →
      BD.set bd env dumps key value =
        (.error (.valueError (strCps "empty keys are not supported")), []) ∧
      BD.get bd env dumps loads key dflt rm =
        (.error (.valueError (strCps "empty keys are not supported")), []) ∧
      BD.delete bd env dumps key =
        (.error (.valueError (strCps "empty keys are not supported")), [])) ∧
    (∀ c ∈ (BD.set bd env dumps key value).2, ∀ kb, c.keyArg = some kb → kb ≠ []) ∧
    (∀ c ∈ (BD.get bd env dumps loads key dflt rm).2, ∀ kb, c.keyArg = some kb → kb ≠ []) ∧
    (∀ c ∈ (BD.delete bd env dumps key).2, ∀ kb, c.keyArg = some kb → kb ≠ []) := by
  refine ⟨fun hraw => ?_, ?_, ?_, ?_⟩
  · have hk : _encode_key dumps key =
        .error (.valueError (strCps "empty keys are not supported")) := by
      unfold _encode_key
      rw [hraw]
      rfl
    refine ⟨?_, ?_, ?_⟩
    · unfold BD.set; rw [hk]
    · unfold BD.get; rw [hk]
    · unfold BD.delete; rw [hk]
  · intro c hc kb2 hkb
    rcases BD.set_trace bd env dumps key value with h0 | ⟨kb, vb, hok, h1 | h1⟩
    · rw [h0] at hc; cases hc
    · rw [h1] at hc
      rcases List.mem_singleton.mp hc with rfl
      simp only [NCall.keyArg, Option.some.injEq] at hkb
      subst hkb
      exact (_encode_key_ok hok).2
    · rw [h1] at hc
      simp only [List.mem_cons, List.not_mem_nil, or_false] at hc
      rcases hc with rfl | rfl
      · simp only [NCall.keyArg, Option.some.injEq] at hkb
        subst hkb
        exact (_encode_key_ok hok).2
      · cases hkb
  · intro c hc kb2 hkb
    rcases BD.get_trace bd env dumps loads key dflt rm with h0 | ⟨kb, hok, h1 | h1⟩
    · rw [h0] at hc; cases hc
    · rw [h1] at hc
      rcases List.mem_singleton.mp hc with rfl
      simp only [NCall.keyArg, Option.some.injEq] at hkb
      subst hkb
      exact (_encode_key_ok hok).2
    · rw [h1] at hc
      simp only [List.mem_cons, List.not_mem_nil, or_false] at hc
      rcases hc with rfl | rfl
      · simp only [NCall.keyArg, Option.some.injEq] at hkb
        subst hkb
        exact (_encode_key_ok hok).2
      · cases hkb
  · intro c hc kb2 hkb
    rcases BD.delete_trace bd env dumps key with h0 | ⟨kb, hok, h1 | h1 | h1⟩
    · rw [h0] at hc; cases hc
    · rw [h1] at hc
      rcases List.mem_singleton.mp hc with rfl
      simp only [NCall.keyArg, Option.some.injEq] at hkb
      subst hkb
      exact (_encode_key_ok hok).2
    · rw [h1] at hc
      simp only [List.mem_cons, List.not_mem_nil, or_false] at hc
      rcases hc with rfl | rfl
      · simp only [NCall.keyArg, Option.some.injEq] at hkb
        subst hkb
        exact (_encode_key_ok hok).2
      · cases hkb
    · rw [h1] at hc
      simp only [List.mem_cons, List.not_mem_nil, or_false] at hc
      rcases hc with rfl | rfl | rfl
      · simp only [NCall.keyArg, Option.some.injEq] at hkb
        subst hkb
        exact (_encode_key_ok hok).2
      · cases hkb
      · cases hkb

theorem C7_empty_key_rejected_witness :
    BD.get ⟨3, true⟩ ⟨0, 0, 0, [], 0, 0, 0, 0, none⟩ (fun _ => [0])
        (fun _ => .error .pickleError) (.bytes []) .pynone false =
      (.error (.valueError (strCps "empty keys are not supported")), []) :=
  ((C7_empty_key_rejected ⟨3, true⟩ ⟨0, 0, 0, [], 0, 0, 0, 0, none⟩
      (fun _ => [0]) (fun _ => .error .pickleError)
      (.bytes []) .pynone .pynone false).1 rfl).2.1

/-- C6 counterexample: on a closed store (`handle = 0`), `get` with the empty
`bytes` key fails with the encoding `ValueError`, not with the "closed"
`BadgerError` — key encoding runs before `_call`'s closed-handle check, so
not every operation on a closed store fails with a 'closed' error. -/
theorem C6_closed_error_counterexample :
    (BD.get ⟨0, true⟩ ⟨1, 0, 0, [], 0, 0, 0, 0, none⟩ (fun _ => [0])
        (fun _ => .error .pickleError) (.bytes []) .pynone false).1 =
      .error (.valueError (strCps "empty keys are not supported")) ∧
    PyErr.valueError (strCps "empty keys are not supported") ≠
      PyErr.badgerError closedMsg :=
  ⟨rfl, by decide⟩

/-- C6 (amended): every `set`/`get`/`delete`/`sync` call on a store whose
handle is 0 fails before any native function is invoked — with the "closed"
`BadgerError` whenever its arguments encode successfully, and with the
encoding error otherwise; `close` on an already-closed store is a no-op
performing no native call. -/
theorem C6_closed_store_fails_fast
    (bd : BD) (env : NativeEnv) (dumps : PyVal → List Nat)
    (loads : List Nat → Except PyErr PyVal)
    (key value dflt : PyVal) (rm : Bool) (h0 : bd.handle = 0) :
    ((BD.set bd env dumps key value).2 = [] ∧
      ∃ e, (BD.set bd env dumps key value).1 = .error e) ∧
    (∀ kb vb, _encode_key dumps key = .ok kb →
      _encode_value bd.autoPickle dumps value = .ok vb →
      BD.set bd env dumps key value = (.error (.badgerError closedMsg), [])) ∧
    ((BD.get bd env dumps loads key dflt rm).2 = [] ∧
      ∃ e, (BD.get bd env dumps loads key dflt rm).1 = .error e) ∧
    (∀ kb, _encode_key dumps key = .ok kb →
      BD.get bd env dumps loads key dflt rm = (.error (.badgerError closedMsg), [])) ∧
    ((BD.delete bd env dumps key).2 = [] ∧
      ∃ e, (BD.delete bd env dumps key).1 = .error e) ∧
    (∀ kb, _encode_key dumps key = .ok kb →
      BD.delete bd env dumps key = (.error (.badgerError closedMsg), [])) ∧
    BD.sync bd env = (.error (.badgerError closedMsg), []) ∧
    BD.close bd env = (bd, .ok (), []) := by
  refine ⟨?_, ?_, ?_, ?_, ?_, ?_, BD.sync_closed env h0, BD.close_closed env h0⟩
  · unfold BD.set
    dsimp only
    repeat' split
    all_goals first
      | exact ⟨rfl, _, rfl⟩
      | exact absurd h0 (by assumption)
  · intro kb vb hk hv
    exact BD.set_closed env value h0 hk hv
  · unfold BD.get
    dsimp only
    repeat' split
    all_goals first
      | exact ⟨rfl, _, rfl⟩
      | exact absurd h0 (by assumption)
  · intro kb hk
    exact BD.get_closed env loads dflt rm h0 hk
  · unfold BD.delete
    dsimp only
    repeat' split
    all_goals first
      | exact ⟨rfl, _, rfl⟩
      | exact absurd h0 (by assumption)
  · intro kb hk
    exact BD.delete_closed env h0 hk

theorem C6_closed_store_fails_fast_witness :
    BD.get ⟨0, true⟩ ⟨1, 0, 0, [], 0, 0, 0, 0, none⟩ (fun _ => [0])
        (fun _ => .error .pickleError) (.bytes [9]) .pynone false =
      (.error (.badgerError closedMsg), []) ∧
    BD.close ⟨0, true⟩ ⟨1, 0, 0, [], 0, 0, 0, 0, none⟩ = (⟨0, true⟩, .ok (), []) :=
  ⟨(C6_closed_store_fails_fast ⟨0, true⟩ ⟨1, 0, 0, [], 0, 0, 0, 0, none⟩
      (fun _ => [0]) (fun _ => .error .pickleError)
      (.bytes [9]) .pynone .pynone false rfl).2.2.2.1 [9] rfl,
   (C6_closed_store_fails_fast ⟨0, true⟩ ⟨1, 0, 0, [], 0, 0, 0, 0, none⟩
      (fun _ => [0]) (fun _ => .error .pickleError)
      (.bytes [9]) .pynone .pynone false rfl).2.2.2.2.2.2.2⟩

/-- C9 counterexample: giving both a path and the in-memory flag is *not*
rejected with a configuration error — `in_memory` wins, the path is ignored,
and the native `Open` is called with the empty path and the in-memory flag. -/
theorem C9_open_both_given_counterexample :
    _open ⟨7, 0, 0, [], 0, 0, 0, 0, none⟩ (some (strCps "x")) true =
      (.ok 7, [.openCall [] 1]) := rfl

/-- C9 (amended): opening fails with the configuration `ValueError` when
`in_memory` is false and no (or an empty) path is given; when `in_memory` is
set the path is ignored (both given is accepted); whenever the native open
call runs and returns the sentinel 0, open fails with a `BadgerError`
carrying the error-register diagnostic (or its fallback text) instead of
returning a handle; a non-zero native handle is returned as-is. -/
theorem C9_open_config_behaviour (env : NativeEnv) (path : Option (List Nat)) :
    ((path = none ∨ path = some []) →
      _open env path false =
        (.error (.valueError
          (strCps "A filesystem path is required unless in_memory=True")), [])) ∧
    (env.openHandle = 0 →
      (_open env path true).1 =
        .error (.badgerError
          ((_last_error env).1.getD (strCps "failed to open badger dictionary")))) ∧
    (∀ p, path = some p → p ≠ [] → env.openHandle = 0 →
      (_open env path false).1 =
        .error (.badgerError
          ((_last_error env).1.getD (strCps "failed to open badger dictionary")))) ∧
    (env.openHandle ≠ 0 → (_open env path true).1 = .ok env.openHandle) ∧
    (∀ p, path = some p → p ≠ [] → env.openHandle ≠ 0 →
      (_open env path false).1 = .ok env.openHandle) := by
  refine ⟨?_, ?_, ?_, ?_, ?_⟩
  · rintro (rfl | rfl) <;> rfl
  · intro hz
    unfold _open
    dsimp only
    simp only [hz, if_pos, if_true]
  · intro p hp hpne hz
    subst hp
    unfold _open
    simp [hpne, hz]
  · intro hnz
    unfold _open
    dsimp only
    simp only [if_neg hnz, if_true]
  · intro p hp hpne hnz
    subst hp
    unfold _open
    simp [hpne, hnz]

theorem C9_open_config_behaviour_witness :
    _open ⟨0, 0, 0, [], 0, 0, 0, 0, none⟩ none false =
      (.error (.valueError
        (strCps "A filesystem path is required unless in_memory=True")), []) ∧
    (_open ⟨0, 0, 0, [], 0, 0, 0, 0, none⟩ none true).1 =
      .error (.badgerError
        ((_last_error ⟨0, 0, 0, [], 0, 0, 0, 0, none⟩).1.getD
          (strCps "failed to open badger dictionary"))) :=
  ⟨(C9_open_config_behaviour ⟨0, 0, 0, [], 0, 0, 0, 0, none⟩ none).1 (Or.inl rfl),
   (C9_open_config_behaviour ⟨0, 0, 0, [], 0, 0, 0, 0, none⟩ none).2.1 rfl⟩

/-- C10 counterexample: after a close, a `get` with the empty `bytes` key
fails with the encoding `ValueError`, not with the "closed" `BadgerError`,
so not every post-close operation fails with the 'closed' error. -/
theorem C10_close_counterexample :
    (BD.get (BD.close ⟨5, true⟩ ⟨0, 0, 0, [], 0, 0, 0, 0, none⟩).1
        ⟨0, 0, 0, [], 0, 0, 0, 0, none⟩ (fun _ => [0])
        (fun _ => .error .pickleError) (.bytes []) .pynone false).1 =
      .error (.valueError (strCps "empty keys are not supported")) ∧
    PyErr.valueError (strCps "empty keys are not supported") ≠
      PyErr.badgerError closedMsg :=
  ⟨rfl, by decide⟩

/-- C10 (amended): `close` zeroes the handle before inspecting the native
`Close` status, so even when the native `Close` reports failure (a storage
error is raised) the store is permanently closed: the native `Close` is
invoked exactly once per close of an open store and never again, a subsequent
`close` is a no-op, and every subsequent operation fails without reaching the
native layer — with the "closed" error whenever its arguments encode
successfully. -/
theorem C10_close_permanent
    (bd : BD) (env env2 : NativeEnv) (dumps : PyVal → List Nat)
    (loads : List Nat → Except PyErr PyVal)
    (key value dflt : PyVal) (rm : Bool) (h : bd.handle ≠ 0) :
    (BD.close bd env).1.handle = 0 ∧
    (BD.close bd env).2.2.countP (fun c => NCall.isClose c) = 1 ∧
    (env.closeStatus ≠ 0 → ∃ m2, (BD.close bd env).2.1 = .error (.badgerError m2)) ∧
    BD.close (BD.close bd env).1 env2 = ((BD.close bd env).1, .ok (), []) ∧
    BD.sync (BD.close bd env).1 env2 = (.error (.badgerError closedMsg), []) ∧
    (∀ kb, _encode_key dumps key = .ok kb →
      BD.get (BD.close bd env).1 env2 dumps loads key dflt rm =
        (.error (.badgerError closedMsg), []) ∧
      BD.delete (BD.close bd env).1 env2 dumps key =
        (.error (.badgerError closedMsg), [])) ∧
    (∀ kb vb, _encode_key dumps key = .ok kb →
      _encode_value bd.autoPickle dumps value = .ok vb →
      BD.set (BD.close bd env).1 env2 dumps key value =
        (.error (.badgerError closedMsg), [])) := by
  have h1 : (BD.close bd env).1 = ⟨0, bd.autoPickle⟩ := by
    unfold BD.close
    dsimp only
    rw [if_neg h]
    split <;> rfl
  refine ⟨by rw [h1], ?_, ?_, ?_, ?_, ?_, ?_⟩
  · unfold BD.close
    dsimp only
    rw [if_neg h]
    split
    · unfold _check_status _last_error
      dsimp only
      repeat' split
      all_goals simp [List.countP_cons, NCall.isClose]
    · simp [List.countP_cons, NCall.isClose]
  · intro hcs
    unfold BD.close
    dsimp only
    rw [if_neg h, if_pos hcs, _check_status_nz env hcs]
    exact ⟨_, rfl⟩
  · rw [h1]
    exact BD.close_closed env2 rfl
  · rw [h1]
    exact BD.sync_closed env2 rfl
  · intro kb hk
    rw [h1]
    exact ⟨BD.get_closed env2 loads dflt rm rfl hk, BD.delete_closed env2 rfl hk⟩
  · intro kb vb hk hv
    rw [h1]
    exact @BD.set_closed ⟨0, bd.autoPickle⟩ env2 dumps key value rfl kb vb hk hv

theorem C10_close_permanent_witness :
    ((BD.close ⟨5, true⟩ ⟨0, 0, 0, [], 0, 0, 0, 1, some (strCps "boom")⟩).1.handle = 0) ∧
    BD.sync (BD.close ⟨5, true⟩ ⟨0, 0, 0, [], 0, 0, 0, 1, some (strCps "boom")⟩).1
        ⟨0, 0, 0, [], 0, 0, 0, 0, none⟩ =
      (.error (.badgerError closedMsg), []) ∧
    (∃ m2, (BD.close ⟨5, true⟩ ⟨0, 0, 0, [], 0, 0, 0, 1, some (strCps "boom")⟩).2.1 =
      .error (.badgerError m2)) :=
  ⟨(C10_close_permanent ⟨5, true⟩ ⟨0, 0, 0, [], 0, 0, 0, 1, some (strCps "boom")⟩
      ⟨0, 0, 0, [], 0, 0, 0, 0, none⟩ (fun _ => [0]) (fun _ => .error .pickleError)
      (.bytes [9]) .pynone .pynone false (by decide)).1,
   (C10_close_permanent ⟨5, true⟩ ⟨0, 0, 0, [], 0, 0, 0, 1, some (strCps "boom")⟩
      ⟨0, 0, 0, [], 0, 0, 0, 0, none⟩ (fun _ => [0]) (fun _ => .error .pickleError)
      (.bytes [9]) .pynone .pynone false (by decide)).2.2.2.2.1,
   (C10_close_permanent ⟨5, true⟩ ⟨0, 0, 0, [], 0, 0, 0, 1, some (strCps "boom")⟩
      ⟨0, 0, 0, [], 0, 0, 0, 0, none⟩ (fun _ => [0]) (fun _ => .error .pickleError)
      (.bytes [9]) .pynone .pynone false (by decide)).2.2.1 (by decide)⟩

end BadgerSpec
